import Mathlib

/-!
Verification development for the mamas_be RAG backend.

Shallow embedding of the retrieval pipeline: the Qdrant vector-store manager
(`src/infrastructure/database/qdrant_manager.py`), the embedding manager
(`src/services/embeddings/manager.py`), the search service
(`src/services/search/search_service.py`), the document upload service
(`src/services/document/upload_service.py`) and the chat API fusion path
(`src/api/v1/chat.py`), together with the configuration module
(`src/config/app_config.py`).

Similarity scores are modelled as rationals.  Python dict payloads are
modelled as association lists `List (String × String)` in which the first
binding of a key shadows later ones, so lists are built highest-precedence
first.  External collaborators (the Qdrant client, the embedding provider,
the TTL cache library) are modelled from the spec where noted.
-/

/-- Python truthiness combinator `x or d` for an optional string:
`None` and the empty string are falsy and replaced by the default. -/
def pyOrStr (v : Option String) (d : String) : String :=
  match v with
  | none => d
  | some s => if s = "" then d else s

/-- Python truthiness combinator `x or d` for an optional float
(modelled as a rational): `None` and `0.0` are falsy and replaced by
the default.  This is the exact shape of
`threshold = score_threshold or config.SEARCH_SCORE_THRESHOLD`. -/
def pyOrRat (v : Option ℚ) (d : ℚ) : ℚ :=
  match v with
  | none => d
  | some x => if x = 0 then d else x

/-- Python truthiness of an optional string (`if request.collection_name:`). -/
def pyTruthyStr (v : Option String) : Bool :=
  match v with
  | none => false
  | some s => s ≠ ""

/-- A Python dict with string keys, as an association list.  The first
binding of a key shadows later bindings. -/
def payloadGet {α : Type} (p : List (String × α)) (k : String) : Option α :=
  (p.find? (fun kv => kv.1 == k)).map (fun kv => kv.2)

/-- One raw hit as returned by `QdrantManager.search`:
`{"id": str(hit.id), "score": hit.score, "payload": hit.payload or {}}`. -/
structure RawHit where
  id : String
  score : ℚ
  payload : List (String × String)
deriving DecidableEq

/-- One processed search result dict as built by
`SearchService._process_search_results` (and later mutated by
`chat._perform_search`, which sets the `collection` key and rewrites
`rank`).  A missing `collection` key is `none`. -/
structure ResultItem where
  id : String
  score : ℚ
  rank : Nat
  content : String
  title : String
  metadata : List (String × String)
  collection : Option String := none
deriving DecidableEq

/-- Modelled from the spec: the external Qdrant client call
`client.query_points(collection_name, query, limit, score_threshold, ...)`.
The spec fixes the backend contract as "ranked hits sorted by descending
similarity, filtered to `score >= score_threshold`".  `candidates` is the
backend's scored candidate set for the query vector, in stored order; the
sort is stable on ties, which the spec leaves unconstrained. -/
def queryPoints (candidates : List RawHit) (limit : Nat) (threshold : ℚ) :
    List RawHit :=
  ((candidates.filter (fun h => threshold ≤ h.score)).insertionSort
    (fun a b => b.score ≤ a.score)).take limit

/-- The vector-store / embedding backends injected into the services.
`qhash` models Python string `hash` (an arbitrary but fixed function within
one process).  `embedQuery` models `EmbeddingManager.create_query_embedding`
(may raise).  `clientQuery` models the remote Qdrant candidate set for a
collection and query vector (an error models a connectivity failure raised
by the client). -/
structure Backend where
  qhash : String → Int
  embedQuery : String → Except String (List ℚ)
  clientQuery : String → List ℚ → Except String (List RawHit)

/-- `QdrantManager.search`: applies the truthy-`or` default to
`score_threshold`, queries the client, and on any exception logs and
returns the empty list. -/
def qdrant_search (b : Backend) (qv : List ℚ) (collection : String)
    (limit : Nat) (score_threshold : Option ℚ) (defaultThreshold : ℚ) :
    List RawHit :=
  let threshold := pyOrRat score_threshold defaultThreshold
  match b.clientQuery collection qv with
  | .ok cands => queryPoints cands limit threshold
  | .error _ => []

/-- `SearchService._process_search_results`: maps raw hits to result dicts,
assigning `rank = i + 1` in list order and extracting
`content`/`title`/`metadata` from the payload. -/
def process_search_results (results : List RawHit) : List ResultItem :=
  results.enum.map (fun p =>
    { id := p.2.id
      score := p.2.score
      rank := p.1 + 1
      content := (payloadGet p.2.payload "content").getD
        ((payloadGet p.2.payload "text").getD "")
      title := (payloadGet p.2.payload "title").getD ""
      metadata := p.2.payload.filter
        (fun kv => !(["content", "text", "title", "vector"].contains kv.1)) })

/-- The configuration values read by the search service, with the
defaults of `src/config/app_config.py` under an empty environment. -/
structure SearchConfig where
  COLLECTION_NAME : String := "labor_consultant_docs"
  SEARCH_SCORE_THRESHOLD : ℚ := 3/10
  ENABLE_SEARCH_CACHE : Bool := true
  CACHE_TTL_SECONDS : ℚ := 300
  CACHE_MAX_SIZE : Nat := 100

/-- The default configuration (no environment overrides). -/
def defaultCfg : SearchConfig := {}

/-- One entry of the search result cache: the stored list and the time it
was stored at. -/
structure CacheEntry where
  value : List ResultItem
  storedAt : ℚ
deriving DecidableEq

/-- Mutable state of `SearchService` plus invocation counters for the two
external backends (used to state "the backend is not invoked again").
The cache list is kept in recency order, least recent first. -/
structure SvcState where
  cache : List (String × CacheEntry)
  embedCalls : Nat
  vectorCalls : Nat
deriving DecidableEq

/-- The empty initial service state. -/
def initState : SvcState := ⟨[], 0, 0⟩

/-- Modelled from the spec: lookup in the TTL cache (`cachetools.TTLCache`
is an external library; the spec fixes "time-based expiry plus a
bounded-size store evicting least-recently-used entries when full").
An entry is served only while `now < storedAt + ttl`; an expired or absent
key is a miss.  The LRU access-order refresh is irrelevant to every claim
and is not modelled. -/
def ttlGet (ttl : ℚ) (cache : List (String × CacheEntry)) (key : String)
    (now : ℚ) : Option (List ResultItem) :=
  match cache.find? (fun e => e.1 == key) with
  | none => none
  | some e => if now < e.2.storedAt + ttl then some e.2.value else none

/-- Modelled from the spec: insertion into the TTL cache.  An existing
binding of the key is replaced; when the store is full the
least-recently-used entry (the head) is evicted. -/
def ttlPut (maxsize : Nat) (cache : List (String × CacheEntry))
    (key : String) (v : List ResultItem) (now : ℚ) :
    List (String × CacheEntry) :=
  let c := cache.filter (fun e => e.1 != key)
  let c := if maxsize ≤ c.length then c.drop 1 else c
  c ++ [(key, ⟨v, now⟩)]

/-- `SearchService._get_cache_key`: `f"{collection}:{top_k}:{hash(query)}"`.
Note that the score threshold is not part of the key. -/
def get_cache_key (b : Backend) (query : String) (top_k : Nat)
    (collection : String) : String :=
  collection ++ ":" ++ toString top_k ++ ":" ++ toString (b.qhash query)

/-- The cache hit computed by `SearchService.search`:  `some v` exactly
when `use_cache` is set, the cache exists, the TTL lookup succeeds and the
cached value is truthy (non-empty). -/
def svcCacheHit (cfg : SearchConfig) (b : Backend) (st : SvcState)
    (now : ℚ) (query : String) (top_k : Nat) (collection : String)
    (use_cache : Bool) : Option (List ResultItem) :=
  if use_cache && cfg.ENABLE_SEARCH_CACHE then
    match ttlGet cfg.CACHE_TTL_SECONDS st.cache
        (get_cache_key b query top_k collection) now with
    | none => none
    | some v => if v = [] then none else some v
  else none

/-- `SearchService.search`.  Returns the result list and the updated state.
On a cache hit the cached list is returned unchanged and no backend is
invoked.  On a miss the query is embedded, the vector store is searched,
results are post-processed, and a non-empty processed list is stored in the
cache.  Any exception (embedding failure; the vector-store manager already
swallows its own) is caught and the empty list is returned. -/
def svcSearch (cfg : SearchConfig) (b : Backend) (st : SvcState) (now : ℚ)
    (query : String) (top_k : Nat) (collection_name : Option String)
    (score_threshold : Option ℚ) (use_cache : Bool) :
    List ResultItem × SvcState :=
  let collection := pyOrStr collection_name cfg.COLLECTION_NAME
  let threshold := pyOrRat score_threshold cfg.SEARCH_SCORE_THRESHOLD
  match svcCacheHit cfg b st now query top_k collection use_cache with
  | some v => (v, st)
  | none =>
    let st1 : SvcState := { st with embedCalls := st.embedCalls + 1 }
    match b.embedQuery query with
    | .error _ => ([], st1)
    | .ok qv =>
      let st2 : SvcState := { st1 with vectorCalls := st1.vectorCalls + 1 }
      let results := qdrant_search b qv collection top_k (some threshold)
        cfg.SEARCH_SCORE_THRESHOLD
      let processed := process_search_results results
      let newCache := ttlPut cfg.CACHE_MAX_SIZE st2.cache
        (get_cache_key b query top_k collection) processed now
      let st3 : SvcState :=
        if use_cache && cfg.ENABLE_SEARCH_CACHE && processed ≠ [] then
          { st2 with cache := newCache }
        else st2
      (processed, st3)

/-- `SearchService.multi_collection_search`: embeds the query once, then
searches each named collection in order, mapping each to its processed
list.  A per-collection failure degrades to an empty list for that
collection (in the source the vector-store manager already returns `[]` on
error, so the inner handler is the degradation point); an embedding failure
degrades every collection to an empty list.  The returned association list
is the Python dict in insertion order, i.e. the order of
`collection_names`. -/
def multi_collection_search (cfg : SearchConfig) (b : Backend)
    (st : SvcState) (query : String) (collection_names : List String)
    (top_k : Nat) : List (String × List ResultItem) × SvcState :=
  let st1 : SvcState := { st with embedCalls := st.embedCalls + 1 }
  match b.embedQuery query with
  | .error _ => (collection_names.map (fun name => (name, [])), st1)
  | .ok qv =>
    let pairs := collection_names.map (fun collection =>
      (collection, process_search_results
        (qdrant_search b qv collection top_k none
          cfg.SEARCH_SCORE_THRESHOLD)))
    let st2 : SvcState :=
      { st1 with vectorCalls := st1.vectorCalls + collection_names.length }
    (pairs, st2)

/-- The fusion step of `chat._perform_search` (lines 228-244): annotate each
result with its collection, pool all lists in dict order, sort the pool by
score descending with Python's stable `list.sort` (modelled by the stable
`insertionSort`), truncate to `top_k` and reassign `rank` as `i + 1`. -/
def perform_search_fuse (multiResults : List (String × List ResultItem))
    (top_k : Nat) : List ResultItem :=
  let allResults := (multiResults.map (fun cr =>
    cr.2.map (fun r => { r with collection := some cr.1 }))).flatten
  let sorted := allResults.insertionSort (fun a b => b.score ≤ a.score)
  (sorted.take top_k).enum.map (fun p => { p.2 with rank := p.1 + 1 })

/-- A Python value held by a module attribute of
`src/config/app_config.py`. -/
inductive ConfigVal where
  | str : String → ConfigVal
  | rat : ℚ → ConfigVal
  | nat : Nat → ConfigVal
  | bool : Bool → ConfigVal
  | strList : List String → ConfigVal
  | func : ConfigVal
deriving DecidableEq

/-- Every module-level name bound by `src/config/app_config.py` (imports,
constants under an empty environment, and functions).  There is no binding
for `SEARCH_COLLECTIONS`. -/
def appConfigAttrs : List (String × ConfigVal) :=
  [("logging", .func),
   ("os", .func),
   ("load_dotenv", .func),
   ("logger", .func),
   ("_env", .str ".env.local"),
   ("ENVIRONMENT", .str "development"),
   ("IS_PRODUCTION", .bool false),
   ("QDRANT_URL",
     .str "https://3d64fa5a-33ce-43f3-bf39-9ad85f5ef0ee.us-west-1-0.aws.cloud.qdrant.io:6333"),
   ("QDRANT_API_KEY", .str ""),
   ("OPENAI_API_KEY", .str ""),
   ("VOYAGE_API_KEY", .str ""),
   ("USE_VOYAGE_EMBEDDING", .bool true),
   ("VOYAGE_MODEL_NAME", .str "voyage-3-large"),
   ("EMBEDDING_MODEL", .str "voyage-3-large"),
   ("VECTOR_SIZE", .nat 1024),
   ("LLM_MODEL", .str "gpt-4o-mini"),
   ("LLM_TEMPERATURE", .rat (7/10)),
   ("LLM_MAX_TOKENS", .nat 2000),
   ("DEFAULT_SEARCH_K", .nat 5),
   ("MAX_SEARCH_K", .nat 20),
   ("SEARCH_SCORE_THRESHOLD", .rat (3/10)),
   ("HOST", .str "0.0.0.0"),
   ("PORT", .nat 8000),
   ("_default_cors",
     .str "http://localhost:3000,http://127.0.0.1:3000,https://rag-murex-seven.vercel.app"),
   ("CORS_ORIGINS",
     .strList ["http://localhost:3000", "http://127.0.0.1:3000",
       "https://rag-murex-seven.vercel.app"]),
   ("ENABLE_SEARCH_CACHE", .bool true),
   ("CACHE_TTL_SECONDS", .nat 300),
   ("CACHE_MAX_SIZE", .nat 100),
   ("COLLECTION_NAME", .str "labor_consultant_docs"),
   ("LOG_LEVEL", .str "DEBUG"),
   ("LOG_FORMAT",
     .str "%(asctime)s - %(name)s - %(levelname)s - %(message)s"),
   ("CHUNK_SIZE", .nat 1000),
   ("CHUNK_OVERLAP", .nat 200),
   ("REQUEST_TIMEOUT", .nat 30),
   ("LLM_TIMEOUT", .nat 120),
   ("EMBEDDING_BATCH_SIZE", .nat 100),
   ("UPLOAD_BATCH_SIZE", .nat 100),
   ("validate_config", .func),
   ("print_config_summary", .func)]

/-- Python attribute access `config.<name>`: `none` models the
`AttributeError` raised for a name the module does not bind. -/
def appConfigGetAttr (name : String) : Option ConfigVal :=
  (appConfigAttrs.find? (fun kv => kv.1 == name)).map (fun kv => kv.2)

/-- A Python exception escaping the search phase of the chat endpoint. -/
inductive PyError where
  | attributeError (name : String)
  | typeError (msg : String)
deriving DecidableEq

/-- Printable message of a modelled Python exception (`str(e)`). -/
def PyError.msg : PyError → String
  | .attributeError name => "module src.config.app_config has no " ++ name
  | .typeError m => "TypeError: " ++ m

/-- `chat._perform_search`.  With a truthy `collection_name` it searches
that single collection via `SearchService.search`.  Otherwise it reads
`config.SEARCH_COLLECTIONS` (raising `AttributeError` when the module does
not bind that name), fans out via `multi_collection_search` and fuses the
per-collection lists. -/
def perform_search (b : Backend) (st : SvcState) (now : ℚ)
    (message : String) (top_k : Nat) (collection_name : Option String) :
    Except PyError (List ResultItem × SvcState) :=
  if pyTruthyStr collection_name then
    .ok (svcSearch defaultCfg b st now message top_k collection_name
      none true)
  else
    match appConfigGetAttr "SEARCH_COLLECTIONS" with
    | none => .error (.attributeError "SEARCH_COLLECTIONS")
    | some (.strList names) =>
      let mr := multi_collection_search defaultCfg b st message names top_k
      .ok (perform_search_fuse mr.1 top_k, mr.2)
    | some _ => .error (.typeError "SEARCH_COLLECTIONS is not iterable")

/-- Outcome of the non-streaming chat endpoint, up to the answer
generation step: either the search phase completes and its results reach
the LLM handler, or the exception is caught and re-raised as an HTTP 500
error. -/
inductive ChatOutcome where
  | reached (results : List ResultItem) (st : SvcState)
  | httpError (statusCode : Nat) (detail : String)
deriving DecidableEq

/-- The search phase of the non-streaming `POST /chat` handler: any
exception from `_perform_search` is converted by the surrounding handler
into `HTTPException(status_code=500, detail=str(e))`. -/
def chat_search_phase (b : Backend) (st : SvcState) (now : ℚ)
    (message : String) (top_k : Nat) (collection_name : Option String) :
    ChatOutcome :=
  match perform_search b st now message top_k collection_name with
  | .ok rs => .reached rs.1 rs.2
  | .error e => .httpError 500 e.msg

/-- `chat._stream_chat_response` as the list of emitted SSE events:
on success one `data: ...` event per LLM chunk followed by the terminal
`data: [DONE]`; an exception is caught and emitted as a single in-band
`data: [ERROR] ...` event.  `llmChunks` models the LLM handler's stream
for the given search results. -/
def stream_chat_response (b : Backend) (st : SvcState) (now : ℚ)
    (message : String) (top_k : Nat) (collection_name : Option String)
    (llmChunks : List ResultItem → List String) : List String :=
  match perform_search b st now message top_k collection_name with
  | .ok rs =>
    (llmChunks rs.1).map (fun c => "data: " ++ c ++ "\n\n") ++
      ["data: [DONE]\n\n"]
  | .error e => ["data: [ERROR] " ++ e.msg ++ "\n\n"]

/-- An embedding provider oracle: the outcome of the `m`-th provider call
in program order, for a given batch of texts.  Models the VoyageAI/OpenAI
client (external); an `error` is a raised provider exception, an `ok`
carries `result.embeddings`.  Indexing by call number expresses transient
failures. -/
def EmbOracle : Type := Nat → List String → Except String (List (List ℚ))

/-- `EmbeddingManager.create_embedding` (single text): one provider call on
the one-element batch, returning `result.embeddings[0]`.  An `IndexError`
on an empty provider reply is a raised exception like any other. -/
def create_embedding (oracle : EmbOracle) (n : Nat) (text : String) :
    Except String (List ℚ) :=
  match oracle n [text] with
  | .error e => .error e
  | .ok [] => .error "IndexError"
  | .ok (v :: _) => .ok v

/-- The attempt loop of `EmbeddingManager.create_embedding_with_retry`:
`attempts` provider attempts remain; a failure on the last attempt re-raises
the provider error, earlier failures back off and retry.  Returns the
outcome together with the next provider call number.  The unreachable
final `raise` of the source corresponds to `attempts = 0`. -/
def retry_loop (oracle : EmbOracle) (text : String) :
    Nat → Nat → Except String (List ℚ) × Nat
  | n, 0 => (.error "max retry count exceeded", n)
  | n, attempts + 1 =>
    match create_embedding oracle n text with
    | .ok v => (.ok v, n + 1)
    | .error e =>
      if attempts = 0 then (.error e, n + 1)
      else retry_loop oracle text (n + 1) attempts

/-- `EmbeddingManager.create_embedding_with_retry` with its default
`max_retries = 3`. -/
def create_embedding_with_retry (oracle : EmbOracle) (n : Nat)
    (text : String) (max_retries : Nat) : Except String (List ℚ) × Nat :=
  retry_loop oracle text n max_retries

/-- The individual-fallback loop of `create_embeddings_batch`: each failed
batch item is embedded on its own via `create_embedding_with_retry`
(3 attempts); an item that still fails is replaced by the zero vector
`[0.0] * self.dimension`. -/
def fallback_items (oracle : EmbOracle) (dim : Nat) :
    List String → Nat → List (List ℚ) × Nat
  | [], n => ([], n)
  | t :: ts, n =>
    let r := create_embedding_with_retry oracle n t 3
    let v := match r.1 with
      | .ok v => v
      | .error _ => List.replicate dim 0
    let rest := fallback_items oracle dim ts r.2
    (v :: rest.1, rest.2)

/-- The sub-batch loop of `EmbeddingManager.create_embeddings_batch` with
batch size `bs1 + 1` (the source default is 128; the Python range step is
necessarily positive).  A successful batch call extends the output with
the provider reply; a failed batch call falls back to per-item embedding
of that batch. -/
def embeddings_batch_go (oracle : EmbOracle) (dim bs1 : Nat) :
    List String → Nat → List (List ℚ) × Nat
  | [], n => ([], n)
  | t :: ts, n =>
    let batch := (t :: ts).take (bs1 + 1)
    let rest := ts.drop bs1
    match oracle n batch with
    | .ok embs =>
      let tail := embeddings_batch_go oracle dim bs1 rest (n + 1)
      (embs ++ tail.1, tail.2)
    | .error _ =>
      let fb := fallback_items oracle dim batch (n + 1)
      let tail := embeddings_batch_go oracle dim bs1 rest fb.2
      (fb.1 ++ tail.1, tail.2)
termination_by ts _ => ts.length
decreasing_by
  all_goals simp [List.length_drop]
  all_goals omega

/-- `EmbeddingManager.create_embeddings_batch` at the default
`batch_size = 128`. -/
def create_embeddings_batch (oracle : EmbOracle) (dim : Nat)
    (texts : List String) (n : Nat) : List (List ℚ) × Nat :=
  embeddings_batch_go oracle dim 127 texts n

/-- One stored Qdrant point as built by
`DocumentUploadService.upload_document`: deterministic id
`f"{doc_id}_{i}"`, an optional vector (`None` until zipped with an
embedding) and the chunk payload. -/
structure PointR where
  id : String
  vector : Option (List ℚ) := none
  payload : List (String × String)
deriving DecidableEq

/-- The deterministic collaborators of `upload_document`:
`md5hex16` models `hashlib.md5(content.encode()).hexdigest()[:16]` (a pure
function of the content) and `splitText` models the configured
`RecursiveCharacterTextSplitter.split_text` (a pure function of the
text). -/
structure UploadDeps where
  md5hex16 : String → String
  splitText : String → List String

/-- The point list built by `DocumentUploadService.upload_document` for a
document, before upsert: chunks, deterministic document id, per-chunk
payloads (dict precedence: `content`/`chunk_index` override the user
metadata, which overrides the base fields), and vectors zipped in from the
batch embedding (`zip` truncates at the shorter list, leaving any
remaining vectors `None`). -/
def upload_points (d : UploadDeps)
    (embedBatch : List String → List (List ℚ)) (content title : String)
    (metadata : List (String × String)) (now : String) : List PointR :=
  let chunks := d.splitText content
  let doc_id := d.md5hex16 content
  let points := chunks.enum.map (fun p =>
    { id := doc_id ++ "_" ++ toString p.1
      payload := [("content", p.2), ("chunk_index", toString p.1)] ++
        metadata ++
        [("title", title), ("document_id", doc_id), ("uploaded_at", now),
         ("total_chunks", toString chunks.length)] : PointR })
  let embs := embedBatch chunks
  (points.zip embs).map (fun pv => { pv.1 with vector := some pv.2 }) ++
    points.drop embs.length

/-- The point ids produced by one `upload_document` run. -/
def upload_point_ids (d : UploadDeps)
    (embedBatch : List String → List (List ℚ)) (content title : String)
    (metadata : List (String × String)) (now : String) : List String :=
  (upload_points d embedBatch content title metadata now).map (fun p => p.id)

/-- Modelled from the spec: the vector store "overwrites points with
existing ids" on upsert.  One point overwrite. -/
def upsert_one (store : List PointR) (p : PointR) : List PointR :=
  store.filter (fun q => q.id != p.id) ++ [p]

/-- `QdrantManager.upsert_points`: the internal batching splits `pts` into
consecutive sub-batches and upserts each, which folds the same per-point
overwrite over the whole list, so the final store does not depend on the
batch size. -/
def upsert_points (store : List PointR) (pts : List PointR) : List PointR :=
  pts.foldl upsert_one store

/-- The single-page scroll of `DocumentUploadService.delete_document`:
`client.scroll(filter document_id == docId, limit=1000)` returns at most
1000 matching points, in stored order, and the source never requests a
further page. -/
def scroll_by_doc_id (store : List PointR) (docId : String) (limit : Nat) :
    List PointR :=
  (store.filter
    (fun p => payloadGet p.payload "document_id" == some docId)).take limit

/-- `QdrantManager.delete_points` via `PointIdsList`: removes exactly the
points whose id is listed. -/
def delete_points (store : List PointR) (ids : List String) : List PointR :=
  store.filter (fun p => !(ids.contains p.id))

/-- `DocumentUploadService.delete_document`: scrolls one page of matching
points (limit 1000), returns `false` when none match, otherwise deletes
the scrolled ids and returns the deletion status. -/
def delete_document (store : List PointR) (docId : String) :
    Bool × List PointR :=
  let points := scroll_by_doc_id store docId 1000
  if points = [] then (false, store)
  else (true, delete_points store (points.map (fun p => p.id)))

/-- The collection-info dict built by `QdrantManager.get_collection_info`. -/
structure CollInfo where
  name : String
  vectors_count : Nat
  points_count : Nat
  status : String
deriving DecidableEq

/-- Overwriting insertion into an association list (Python dict
assignment). -/
def assocSet {α : Type} (l : List (String × α)) (k : String) (v : α) :
    List (String × α) :=
  l.filter (fun kv => kv.1 != k) ++ [(k, v)]

/-- State of `QdrantManager`: the remote server's collections (external,
successful-connectivity runs) plus the manager's metadata cache
`_collection_cache` and `_cache_timestamp`.  `_cache_ttl` is the source
constant 300 seconds. -/
structure QdrantState where
  remote : List (String × CollInfo)
  infoCache : List (String × CollInfo)
  cacheTs : List (String × ℚ)
deriving DecidableEq

/-- `QdrantManager.get_collection_info`: serves the cached entry while
`now - _cache_timestamp.get(name, 0) < 300`; otherwise fetches from the
remote, caches the result with timestamp `now`, and returns it; a missing
collection (client exception) is caught and returned as `None` without
touching the cache. -/
def get_collection_info (s : QdrantState) (name : String) (now : ℚ) :
    Option CollInfo × QdrantState :=
  let fetch : Option CollInfo × QdrantState :=
    match payloadGet s.remote name with
    | some info =>
      (some info,
        { s with infoCache := assocSet s.infoCache name info,
                 cacheTs := assocSet s.cacheTs name now })
    | none => (none, s)
  match payloadGet s.infoCache name with
  | some cached =>
    if now - ((payloadGet s.cacheTs name).getD 0) < 300 then
      (some cached, s)
    else fetch
  | none => fetch

/-- `QdrantManager.create_collection`: returns `true` without contacting
the server when the collection already exists, otherwise creates it
remotely (fresh empty collection, modelled from the spec contract
"create(name, dimension, metric), idempotent if already exists").  The
metadata cache is not touched on either path. -/
def create_collection (s : QdrantState) (name : String) (_size : Nat) :
    Bool × QdrantState :=
  if (payloadGet s.remote name).isSome then (true, s)
  else
    (true,
      { s with remote := s.remote ++
          [(name, ⟨name, 0, 0, "green"⟩)] })

/-- `QdrantManager.delete_collection`: deletes the remote collection; a
client exception for a missing collection is caught and reported as
`false`.  The metadata cache is not touched on either path. -/
def delete_collection (s : QdrantState) (name : String) :
    Bool × QdrantState :=
  if (payloadGet s.remote name).isSome then
    (true, { s with remote := s.remote.filter (fun kv => kv.1 != name) })
  else (false, s)

/-! Helper lemmas shared by several claims. -/

/-- Descending-score order on raw hits is total. -/
instance : IsTotal RawHit (fun a b => b.score ≤ a.score) :=
  ⟨fun a b => le_total b.score a.score⟩

/-- Descending-score order on raw hits is transitive. -/
instance : IsTrans RawHit (fun a b => b.score ≤ a.score) :=
  ⟨fun _ _ _ hab hbc => le_trans hbc hab⟩

/-- Descending-score order on result items is total. -/
instance : IsTotal ResultItem (fun a b => b.score ≤ a.score) :=
  ⟨fun a b => le_total b.score a.score⟩

/-- Descending-score order on result items is transitive. -/
instance : IsTrans ResultItem (fun a b => b.score ≤ a.score) :=
  ⟨fun _ _ _ hab hbc => le_trans hbc hab⟩

/-- Mapping an index-using function over `enumFrom` and then projecting a
component that copies the second coordinate recovers the plain map. -/
theorem enumFrom_map_proj {α β : Type} (g : ℕ × α → β) (sc : α → ℚ)
    (scb : β → ℚ) (hg : ∀ p, scb (g p) = sc p.2) :
    ∀ (l : List α) (n : ℕ), ((l.enumFrom n).map g).map scb = l.map sc := by
  intro l
  induction l with
  | nil => intro n; rfl
  | cons h t ih =>
    intro n
    simp only [List.enumFrom, List.map_cons, hg]
    exact congrArg (sc h :: ·) (ih (n + 1))

/-- Mapping an index-using function over `enumFrom` and projecting a
component equal to `index + 1` yields the range `n+1, …, n+len`. -/
theorem enumFrom_map_rank {α β : Type} (g : ℕ × α → β) (rk : β → ℕ)
    (hg : ∀ p, rk (g p) = p.1 + 1) :
    ∀ (l : List α) (n : ℕ),
      ((l.enumFrom n).map g).map rk = List.range' (n + 1) l.length := by
  intro l
  induction l with
  | nil => intro n; rfl
  | cons h t ih =>
    intro n
    simp only [List.enumFrom, List.map_cons, hg, List.length_cons,
      List.range'_succ]
    exact congrArg ((n + 1) :: ·) (ih (n + 1))

/-- Pairwise order on a list lifts along `enumFrom`-and-map when the
function acts on the second coordinate. -/
theorem enumFrom_map_pairwise {α β : Type} (g : ℕ × α → β)
    (R : α → α → Prop) (S : β → β → Prop)
    (hg : ∀ p q, R p.2 q.2 → S (g p) (g q)) :
    ∀ (l : List α) (n : ℕ), l.Pairwise R →
      ((l.enumFrom n).map g).Pairwise S := by
  intro l
  induction l with
  | nil => intro n _; exact List.Pairwise.nil
  | cons h t ih =>
    intro n hp
    rcases List.pairwise_cons.mp hp with ⟨hhead, htail⟩
    simp only [List.enumFrom, List.map_cons]
    refine List.pairwise_cons.mpr ⟨?_, ih (n + 1) htail⟩
    intro b hb
    rcases List.mem_map.mp hb with ⟨p, hp2, rfl⟩
    have hmem : p.2 ∈ t := by
      have h2 := List.mem_map_of_mem Prod.snd hp2
      rw [List.enumFrom_map_snd] at h2
      exact h2
    exact hg (n, h) p (hhead _ hmem)

/-- The scores of processed results are the scores of the raw hits. -/
theorem process_search_results_map_score (l : List RawHit) :
    (process_search_results l).map (fun x => x.score) =
      l.map (fun h => h.score) := by
  simp only [process_search_results, List.enum]
  refine enumFrom_map_proj _ _ _ ?_ l 0
  intro p
  rfl

/-- The ranks of processed results are exactly `1, …, len`. -/
theorem process_search_results_map_rank (l : List RawHit) :
    (process_search_results l).map (fun x => x.rank) =
      List.range' 1 l.length := by
  simp only [process_search_results, List.enum]
  refine enumFrom_map_rank _ _ ?_ l 0
  intro p
  rfl

/-- Processing preserves list length. -/
theorem process_search_results_length (l : List RawHit) :
    (process_search_results l).length = l.length := by
  unfold process_search_results
  simp

/-!  Claim C10: a zero score threshold is replaced by the configured
default through the truthy `or`. -/

/-- C10: `search` with an explicit `score_threshold` of `0.0` behaves
exactly like a call with no threshold argument: the truthy `or` replaces
`0.0` by `SEARCH_SCORE_THRESHOLD`, whose default is `0.3`, so a caller
cannot request threshold-zero results through this parameter; the same
holds for `QdrantManager.search`. -/
theorem c10_zero_threshold_is_replaced_by_default :
    (∀ (b : Backend) (st : SvcState) (now : ℚ) (q : String) (k : ℕ)
       (coll : Option String) (uc : Bool),
       svcSearch defaultCfg b st now q k coll (some 0) uc =
         svcSearch defaultCfg b st now q k coll none uc)
    ∧ pyOrRat (some 0) defaultCfg.SEARCH_SCORE_THRESHOLD = 3/10
    ∧ ∀ (b : Backend) (qv : List ℚ) (c : String) (lim : ℕ) (d : ℚ),
        qdrant_search b qv c lim (some 0) d = qdrant_search b qv c lim none d := by
  refine ⟨fun b st now q k coll uc => ?_, by norm_num [pyOrRat, defaultCfg],
    fun b qv c lim d => ?_⟩
  · simp [svcSearch, pyOrRat]
  · simp [qdrant_search, pyOrRat]

/-!  Claim C9: the default chat path reads the missing config attribute
`SEARCH_COLLECTIONS` and fails before any search. -/

/-- C9: `app_config` binds no attribute `SEARCH_COLLECTIONS`, so every
chat request without a `collection_name` raises `AttributeError` in
`_perform_search` before any search is performed; the non-streaming
handler surfaces it as HTTP 500 and the streaming handler emits a single
in-band `data: [ERROR]` event, and the fused multi-collection result is
never produced. -/
theorem c9_default_chat_path_raises_attribute_error :
    appConfigGetAttr "SEARCH_COLLECTIONS" = none
    ∧ ∀ (b : Backend) (st : SvcState) (now : ℚ) (message : String)
        (top_k : ℕ) (llm : List ResultItem → List String),
        perform_search b st now message top_k none =
          .error (.attributeError "SEARCH_COLLECTIONS")
        ∧ chat_search_phase b st now message top_k none =
            .httpError 500 (PyError.attributeError "SEARCH_COLLECTIONS").msg
        ∧ stream_chat_response b st now message top_k none llm =
            ["data: [ERROR] " ++
              (PyError.attributeError "SEARCH_COLLECTIONS").msg ++ "\n\n"] := by
  have hattr : appConfigGetAttr "SEARCH_COLLECTIONS" = none := by decide
  refine ⟨hattr, fun b st now message top_k llm => ?_⟩
  have hps : perform_search b st now message top_k none =
      .error (.attributeError "SEARCH_COLLECTIONS") := by
    simp [perform_search, pyTruthyStr, hattr]
  exact ⟨hps, by simp [chat_search_phase, hps],
    by simp [stream_chat_response, hps]⟩

/-!  Claim C3: error handling on the single-collection search path. -/

/-- A backend whose embedding and vector-store calls all raise
connectivity errors. -/
def down_backend : Backend :=
  ⟨fun _ => 0, fun _ => .error "connection refused",
    fun _ _ => .error "connection refused"⟩

/-- A healthy backend that embeds every query and finds no candidates. -/
def quiet_backend : Backend :=
  ⟨fun _ => 0, fun _ => .ok [1], fun _ _ => .ok []⟩

/-- C3 counterexample: with every backend call raising a connectivity
error, `SearchService.search` returns the empty list as a normal success
value — byte-identical to the result on a healthy backend that finds
nothing — so the error is not surfaced to the caller as a typed
failure. -/
theorem c3_counterexample_error_becomes_empty_success :
    (svcSearch defaultCfg down_backend initState 0 "labor law" 5 none
      none true).1 = []
    ∧ (svcSearch defaultCfg down_backend initState 0 "labor law" 5 none
        none true).1 =
      (svcSearch defaultCfg quiet_backend initState 0 "labor law" 5 none
        none true).1 := by
  constructor
  · rfl
  · rfl

/-- C3 amended: on the single-collection search path, a connectivity or
backend error during query embedding or vector-store search is caught,
logged, and converted into an empty successful result list (nothing is
cached); it is not surfaced as a typed failure. -/
theorem c3_amended_errors_swallowed_to_empty_list (cfg : SearchConfig)
    (bk : Backend) (st : SvcState) (now : ℚ) (q : String) (k : ℕ)
    (coll : Option String) (th : Option ℚ) (uc : Bool)
    (hmiss : svcCacheHit cfg bk st now q k
      (pyOrStr coll cfg.COLLECTION_NAME) uc = none) :
    (∀ e, bk.embedQuery q = .error e →
      svcSearch cfg bk st now q k coll th uc =
        ([], { st with embedCalls := st.embedCalls + 1 }))
    ∧ (∀ qv e, bk.embedQuery q = .ok qv →
        bk.clientQuery (pyOrStr coll cfg.COLLECTION_NAME) qv = .error e →
        svcSearch cfg bk st now q k coll th uc =
          ([], { st with embedCalls := st.embedCalls + 1,
                         vectorCalls := st.vectorCalls + 1 })) := by
  constructor
  · intro e he
    simp [svcSearch, hmiss, he]
  · intro qv e hq hc
    simp [svcSearch, hmiss, hq, qdrant_search, hc, process_search_results]

/-- C3 amended, witness at a concrete erroring backend. -/
theorem c3_amended_witness :
    svcSearch defaultCfg down_backend initState 0 "labor law" 5 none
      none true =
      ([], { initState with embedCalls := initState.embedCalls + 1 }) :=
  (c3_amended_errors_swallowed_to_empty_list defaultCfg down_backend
    initState 0 "labor law" 5 none none true (by decide)).1
    "connection refused" rfl

/-!  Claim C8: the collection-metadata cache is not invalidated on
collection create/delete. -/

/-- A collection-info value used in the C8 scenarios. -/
def stale_info : CollInfo := ⟨"docs", 7, 7, "green"⟩

/-- Initial manager state for the C8 counterexample: the collection
exists remotely and the metadata cache is empty. -/
def stale_s0 : QdrantState := ⟨[("docs", stale_info)], [], []⟩

/-- C8 counterexample: read the metadata (filling the cache), delete the
collection, read again within the TTL — the stale pre-delete entry is
served although the collection no longer exists remotely. -/
theorem c8_counterexample_stale_entry_served_after_delete :
    (get_collection_info
      (delete_collection (get_collection_info stale_s0 "docs" 0).2
        "docs").2 "docs" 100).1 = some stale_info
    ∧ payloadGet
        ((delete_collection (get_collection_info stale_s0 "docs" 0).2
          "docs").2).remote "docs" = none := by
  constructor
  · norm_num [get_collection_info, delete_collection, stale_s0, stale_info,
      payloadGet, assocSet, List.find?]
  · norm_num [get_collection_info, delete_collection, stale_s0, stale_info,
      payloadGet, assocSet, List.find?]

/-- C8 amended: `create_collection` and `delete_collection` leave the
metadata cache untouched (no invalidation), so a `get_collection_info`
call issued after a create or delete, while the entry is within its
5-minute TTL, serves the stale pre-operation cached entry. -/
theorem c8_amended_no_invalidation_on_create_delete (s : QdrantState)
    (name : String) (sz : ℕ) (now t0 : ℚ) (v : CollInfo)
    (hc : payloadGet s.infoCache name = some v)
    (ht : payloadGet s.cacheTs name = some t0)
    (hlive : now - t0 < 300) :
    ((delete_collection s name).2.infoCache = s.infoCache
      ∧ (delete_collection s name).2.cacheTs = s.cacheTs)
    ∧ ((create_collection s name sz).2.infoCache = s.infoCache
      ∧ (create_collection s name sz).2.cacheTs = s.cacheTs)
    ∧ get_collection_info (delete_collection s name).2 name now =
        (some v, (delete_collection s name).2) := by
  have hdel : (delete_collection s name).2.infoCache = s.infoCache
      ∧ (delete_collection s name).2.cacheTs = s.cacheTs := by
    unfold delete_collection
    split <;> exact ⟨rfl, rfl⟩
  refine ⟨hdel, ?_, ?_⟩
  · unfold create_collection
    split <;> exact ⟨rfl, rfl⟩
  · unfold get_collection_info
    rw [hdel.1, hdel.2, hc, ht]
    simp [hlive]

/-- C8 amended, witness at a concrete state with a live cached entry. -/
theorem c8_amended_witness :
    get_collection_info
      (delete_collection
        (⟨[], [("docs", stale_info)], [("docs", 0)]⟩ : QdrantState)
        "docs").2 "docs" 100 =
      (some stale_info,
        (delete_collection
          (⟨[], [("docs", stale_info)], [("docs", 0)]⟩ : QdrantState)
          "docs").2) :=
  (c8_amended_no_invalidation_on_create_delete
    ⟨[], [("docs", stale_info)], [("docs", 0)]⟩ "docs" 4 100 0 stale_info
    (by decide) (by decide) (by norm_num)).2.2

/-!  Claim C2: repeating an identical search within the TTL serves the
stored list without backend calls; after expiry the backend is hit
again. -/

/-- Looking up a key right after storing it hits the freshly stored entry
exactly while it is within its TTL, whatever else the cache contained. -/
theorem ttlGet_ttlPut_self (maxsize : ℕ)
    (cache : List (String × CacheEntry)) (key : String)
    (v : List ResultItem) (t1 ttl t2 : ℚ) :
    ttlGet ttl (ttlPut maxsize cache key v t1) key t2 =
      if t2 < t1 + ttl then some v else none := by
  unfold ttlGet ttlPut
  have hnone : List.find? (fun e => e.1 == key)
      (if maxsize ≤ (cache.filter (fun e => e.1 != key)).length then
        (cache.filter (fun e => e.1 != key)).drop 1
      else cache.filter (fun e => e.1 != key)) = none := by
    rw [List.find?_eq_none]
    intro x hx
    have hx' : x ∈ cache.filter (fun e => e.1 != key) := by
      split at hx
      · exact List.drop_subset 1 _ hx
      · exact hx
    have := (List.mem_filter.mp hx').2
    simp only [bne_iff_ne, ne_eq] at this
    simp [this]
  simp only [List.find?_append, hnone, Option.none_or, List.find?_cons,
    beq_self_eq_true]

/-- C2: with caching enabled, after a cache-miss search whose result list
is non-empty, repeating the identical `(query, top_k, collection)` search
within the TTL returns exactly the stored list with the service state
unchanged — in particular without invoking the embedding or vector-store
backend — while a repeat at or after expiry invokes the embedding backend
afresh. -/
theorem c2_repeat_search_cache_semantics (cfg : SearchConfig)
    (bk : Backend) (st : SvcState) (t1 t2 : ℚ) (q : String) (k : ℕ)
    (coll : Option String) (r1 : List ResultItem) (st1 : SvcState)
    (hen : cfg.ENABLE_SEARCH_CACHE = true)
    (hmiss : svcCacheHit cfg bk st t1 q k
      (pyOrStr coll cfg.COLLECTION_NAME) true = none)
    (h1 : svcSearch cfg bk st t1 q k coll none true = (r1, st1))
    (hne : r1 ≠ []) :
    (t2 < t1 + cfg.CACHE_TTL_SECONDS →
      svcSearch cfg bk st1 t2 q k coll none true = (r1, st1))
    ∧ (t1 + cfg.CACHE_TTL_SECONDS ≤ t2 →
      (svcSearch cfg bk st1 t2 q k coll none true).2.embedCalls =
        st1.embedCalls + 1) := by
  simp only [svcSearch, hmiss] at h1
  cases hq : bk.embedQuery q with
  | error e =>
    rw [hq] at h1
    have hfst : ([] : List ResultItem) = r1 := congrArg Prod.fst h1
    exact absurd hfst.symm hne
  | ok qv =>
    rw [hq] at h1
    cases hc : bk.clientQuery (pyOrStr coll cfg.COLLECTION_NAME) qv with
    | error e =>
      simp only [qdrant_search, hc] at h1
      have hfst : ([] : List ResultItem) = r1 := congrArg Prod.fst h1
      exact absurd hfst.symm hne
    | ok cands =>
      simp only [qdrant_search, hc] at h1
      injection h1 with hpr hst
      rw [hen] at hst
      rw [hpr] at hst
      rw [if_pos (by simp [decide_eq_true hne])] at hst
      subst hst
      constructor
      · intro hlive
        have hhit : svcCacheHit cfg bk
            { cache := ttlPut cfg.CACHE_MAX_SIZE st.cache
                (get_cache_key bk q k (pyOrStr coll cfg.COLLECTION_NAME))
                r1 t1,
              embedCalls := st.embedCalls + 1,
              vectorCalls := st.vectorCalls + 1 } t2 q k
            (pyOrStr coll cfg.COLLECTION_NAME) true = some r1 := by
          simp only [svcCacheHit, hen, Bool.and_self, if_true]
          rw [ttlGet_ttlPut_self]
          rw [if_pos hlive]
          simp [hne]
        simp only [svcSearch, hhit]
      · intro hexp
        have hmiss2 : svcCacheHit cfg bk
            { cache := ttlPut cfg.CACHE_MAX_SIZE st.cache
                (get_cache_key bk q k (pyOrStr coll cfg.COLLECTION_NAME))
                r1 t1,
              embedCalls := st.embedCalls + 1,
              vectorCalls := st.vectorCalls + 1 } t2 q k
            (pyOrStr coll cfg.COLLECTION_NAME) true = none := by
          simp only [svcCacheHit, hen, Bool.and_self, if_true]
          rw [ttlGet_ttlPut_self]
          rw [if_neg (not_lt.mpr hexp)]
        simp only [svcSearch, hmiss2]
        cases bk.embedQuery q with
        | error e => rfl
        | ok qv2 =>
          split
          · rfl
          · split <;> rfl

/-- A concrete healthy backend for the C2 witness scenario: one stored
passage scoring 9/10. -/
def c2_backend : Backend :=
  ⟨fun _ => 0, fun _ => .ok [1],
    fun _ _ => .ok [⟨"p1", 9/10, [("content", "alpha"), ("title", "doc")]⟩]⟩

/-- First search of the C2 witness scenario, at time 0 on an empty
state. -/
def c2_first : List ResultItem × SvcState :=
  svcSearch defaultCfg c2_backend initState 0 "q" 5 none none true

/-- C2 witness: repeating the identical search at time 100 (within the
300-second TTL) returns the stored list and leaves the state unchanged. -/
theorem c2_witness :
    svcSearch defaultCfg c2_backend c2_first.2 100 "q" 5 none none true =
      (c2_first.1, c2_first.2) :=
  (c2_repeat_search_cache_semantics defaultCfg c2_backend initState 0 100
    "q" 5 none c2_first.1 c2_first.2 rfl rfl rfl
    (by norm_num [c2_first, svcSearch, svcCacheHit, ttlGet, qdrant_search,
      queryPoints, process_search_results, pyOrRat, pyOrStr, get_cache_key,
      c2_backend, initState, defaultCfg, payloadGet, List.find?,
      List.insertionSort, List.orderedInsert])).1
    (by norm_num [defaultCfg])

/-!  Claim C7: threshold filtering, descending order and contiguous
ranks. -/

/-- The modelled vector-store call returns only hits at or above the
threshold, in descending score order. -/
theorem queryPoints_spec (cands : List RawHit) (lim : ℕ) (τ : ℚ) :
    (∀ h ∈ queryPoints cands lim τ, τ ≤ h.score)
    ∧ List.Pairwise (fun a c : RawHit => c.score ≤ a.score)
        (queryPoints cands lim τ) := by
  constructor
  · intro h hmem
    have h1 : h ∈ (cands.filter
        (fun x => decide (τ ≤ x.score))).insertionSort
        (fun a c => c.score ≤ a.score) := List.take_subset _ _ hmem
    have h2 : h ∈ cands.filter (fun x => decide (τ ≤ x.score)) :=
      (List.perm_insertionSort _ _).mem_iff.mp h1
    have h3 := (List.mem_filter.mp h2).2
    simpa using h3
  · have hs := List.sorted_insertionSort
      (fun a c : RawHit => c.score ≤ a.score)
      (cands.filter (fun x => decide (τ ≤ x.score)))
    exact List.Pairwise.sublist (List.take_sublist _ _) hs

/-- Post-processing preserves the threshold bound and the descending
order, and assigns the contiguous ranks `1, …, len`. -/
theorem process_results_spec (raw : List RawHit) (τ : ℚ)
    (hb : ∀ h ∈ raw, τ ≤ h.score)
    (hp : List.Pairwise (fun a c : RawHit => c.score ≤ a.score) raw) :
    (∀ x ∈ process_search_results raw, τ ≤ x.score)
    ∧ List.Pairwise (fun a c : ResultItem => c.score ≤ a.score)
        (process_search_results raw)
    ∧ (process_search_results raw).map (fun x => x.rank) =
        List.range' 1 (process_search_results raw).length := by
  refine ⟨?_, ?_, ?_⟩
  · intro x hx
    have hsc : x.score ∈ (process_search_results raw).map
        (fun y => y.score) := List.mem_map_of_mem _ hx
    rw [process_search_results_map_score] at hsc
    rcases List.mem_map.mp hsc with ⟨h, hh, hEq⟩
    exact hEq ▸ hb h hh
  · simp only [process_search_results, List.enum]
    refine enumFrom_map_pairwise _ _ _ ?_ raw 0 hp
    intro p q hpq
    exact hpq
  · rw [process_search_results_map_rank, process_search_results_length]

/-- C7 amended: on a cache miss (the cache key ignores the threshold, see
the counterexample), `search` with any non-zero threshold `τ` returns only
results with `score ≥ τ`, in descending score order, with `rank` exactly
`1..len`; at `τ = 3/10` this is the claimed property. -/
theorem c7_amended_threshold_sorted_ranked_on_miss (cfg : SearchConfig)
    (bk : Backend) (st : SvcState) (now : ℚ) (q : String) (k : ℕ)
    (coll : Option String) (τ : ℚ) (hτ : τ ≠ 0)
    (hmiss : svcCacheHit cfg bk st now q k
      (pyOrStr coll cfg.COLLECTION_NAME) true = none) :
    (∀ x ∈ (svcSearch cfg bk st now q k coll (some τ) true).1, τ ≤ x.score)
    ∧ List.Pairwise (fun a c : ResultItem => c.score ≤ a.score)
        (svcSearch cfg bk st now q k coll (some τ) true).1
    ∧ (svcSearch cfg bk st now q k coll (some τ) true).1.map
        (fun x => x.rank) =
      List.range' 1 (svcSearch cfg bk st now q k coll (some τ) true).1.length := by
  have hτ' : pyOrRat (some τ) cfg.SEARCH_SCORE_THRESHOLD = τ := by
    simp [pyOrRat, hτ]
  cases hq : bk.embedQuery q with
  | error e =>
    have hr : (svcSearch cfg bk st now q k coll (some τ) true).1 = [] := by
      simp [svcSearch, hmiss, hq]
    rw [hr]
    exact ⟨by simp, List.Pairwise.nil, by simp⟩
  | ok qv =>
    cases hc : bk.clientQuery (pyOrStr coll cfg.COLLECTION_NAME) qv with
    | error e =>
      have hr : (svcSearch cfg bk st now q k coll (some τ) true).1 = [] := by
        simp [svcSearch, hmiss, hq, qdrant_search, hc,
          process_search_results]
      rw [hr]
      exact ⟨by simp, List.Pairwise.nil, by simp⟩
    | ok cands =>
      have hr : (svcSearch cfg bk st now q k coll (some τ) true).1 =
          process_search_results (queryPoints cands k τ) := by
        simp only [svcSearch, hmiss, hq, qdrant_search, hc, hτ']
      rw [hr]
      exact process_results_spec _ τ (queryPoints_spec cands k τ).1
        (queryPoints_spec cands k τ).2

/-- A backend holding one low-scoring passage, for the C7
counterexample. -/
def c7_backend : Backend :=
  ⟨fun _ => 0, fun _ => .ok [1],
    fun _ _ => .ok [⟨"low", 1/5, [("content", "x")]⟩]⟩

/-- C7 counterexample: the cache key omits the threshold, so after a
search with threshold `0.1` caches a result scoring `0.2`, the identical
search with threshold `0.3` serves that cached result — returning a score
below `0.3`, contradicting the claim as stated for every reachable
state. -/
theorem c7_counterexample_cache_ignores_threshold :
    ((svcSearch defaultCfg c7_backend
        (svcSearch defaultCfg c7_backend initState 0 "q" 5 none
          (some (1/10)) true).2
        10 "q" 5 none (some (3/10)) true).1.map (fun x => x.score)) = [1/5]
    ∧ ¬((3 : ℚ)/10 ≤ 1/5) := by
  constructor
  · norm_num [svcSearch, svcCacheHit, ttlGet, ttlPut, qdrant_search,
      queryPoints, process_search_results, pyOrRat, pyOrStr, c7_backend,
      initState, defaultCfg, payloadGet, List.find?, List.insertionSort,
      List.orderedInsert, beq_self_eq_true]
  · norm_num

/-- C7 amended, witness: concrete miss-path call at threshold `3/10`. -/
theorem c7_amended_witness :
    (svcSearch defaultCfg c7_backend initState 0 "q" 5 none
      (some (3/10)) true).1.map (fun x => x.rank) =
    List.range' 1
      (svcSearch defaultCfg c7_backend initState 0 "q" 5 none
        (some (3/10)) true).1.length :=
  (c7_amended_threshold_sorted_ranked_on_miss defaultCfg c7_backend
    initState 0 "q" 5 none (3/10) (by norm_num) rfl).2.2

/-!  Claim C1: multi-collection fusion order. -/

/-- Follows the spec's words (for comparison with the source fusion):
`a` precedes `c` when its score is higher, with ties broken by original
per-collection rank ascending, then by collection name. -/
def spec_fusion_before (a c : ResultItem) : Prop :=
  c.score < a.score ∨ (a.score = c.score ∧ (a.rank < c.rank ∨
    (a.rank = c.rank ∧ (a.collection.getD "") ≤ (c.collection.getD ""))))

instance : DecidableRel spec_fusion_before := fun a c =>
  inferInstanceAs (Decidable (c.score < a.score ∨ (a.score = c.score ∧
    (a.rank < c.rank ∨ (a.rank = c.rank ∧
      (a.collection.getD "") ≤ (c.collection.getD ""))))))

/-- The fusion the spec describes, word for word: pool, sort by
`spec_fusion_before`, truncate, reassign ranks. -/
def spec_fuse (multiResults : List (String × List ResultItem))
    (top_k : ℕ) : List ResultItem :=
  let allResults := (multiResults.map (fun cr =>
    cr.2.map (fun r => { r with collection := some cr.1 }))).flatten
  let sorted := allResults.insertionSort spec_fusion_before
  (sorted.take top_k).enum.map (fun p => { p.2 with rank := p.1 + 1 })

/-- Collection A of the claim's example: scores 0.9 / 0.8 / 0.5. -/
def fuse_a : List ResultItem :=
  [{ id := "a1", score := 9/10, rank := 1, content := "", title := "",
     metadata := [] },
   { id := "a2", score := 4/5, rank := 2, content := "", title := "",
     metadata := [] },
   { id := "a3", score := 1/2, rank := 3, content := "", title := "",
     metadata := [] }]

/-- Collection B of the claim's example: scores 0.95 / 0.7 / 0.6. -/
def fuse_b : List ResultItem :=
  [{ id := "b1", score := 19/20, rank := 1, content := "", title := "",
     metadata := [] },
   { id := "b2", score := 7/10, rank := 2, content := "", title := "",
     metadata := [] },
   { id := "b3", score := 3/5, rank := 3, content := "", title := "",
     metadata := [] }]

/-- Collection A of the tie-break counterexample. -/
def tie_a : List ResultItem :=
  [{ id := "a1", score := 9/10, rank := 1, content := "", title := "",
     metadata := [] },
   { id := "a2", score := 1/2, rank := 2, content := "", title := "",
     metadata := [] }]

/-- Collection B of the tie-break counterexample: one result tying
A's second result at score 0.5 but with better per-collection rank 1. -/
def tie_b : List ResultItem :=
  [{ id := "b1", score := 1/2, rank := 1, content := "", title := "",
     metadata := [] }]

/-- C1 counterexample: on tied scores the source fusion keeps pooled
order (collection list order, then original rank) because Python's sort
is stable, whereas the claimed order (rank ascending, then collection
name) would place B's rank-1 result first; the two orders differ at an
explicit input. -/
theorem c1_counterexample_tie_break_differs :
    (perform_search_fuse [("A", tie_a), ("B", tie_b)] 5).map
      (fun x => x.id) = ["a1", "a2", "b1"]
    ∧ (spec_fuse [("A", tie_a), ("B", tie_b)] 5).map
        (fun x => x.id) = ["a1", "b1", "a2"]
    ∧ perform_search_fuse [("A", tie_a), ("B", tie_b)] 5 ≠
        spec_fuse [("A", tie_a), ("B", tie_b)] 5 := by
  have h1 : (perform_search_fuse [("A", tie_a), ("B", tie_b)] 5).map
      (fun x => x.id) = ["a1", "a2", "b1"] := by
    norm_num [perform_search_fuse, tie_a, tie_b, List.insertionSort,
      List.orderedInsert, List.enum, List.enumFrom]
  have h2 : (spec_fuse [("A", tie_a), ("B", tie_b)] 5).map
      (fun x => x.id) = ["a1", "b1", "a2"] := by
    norm_num [spec_fuse, spec_fusion_before, tie_a, tie_b,
      List.insertionSort, List.orderedInsert, List.enum, List.enumFrom]
  refine ⟨h1, h2, ?_⟩
  intro heq
  have h3 := congrArg (List.map (fun x : ResultItem => x.id)) heq
  rw [h1, h2] at h3
  exact absurd h3 (by decide)

/-- C1 amended: fusion pools the per-collection lists in configured
order, sorts by score descending with ties broken by pooled order (the
sort is stable), truncates to `top_k` and reassigns ranks `1..len`; on
the claim's example with all-distinct scores this yields exactly
`[B:0.95, A:0.9, A:0.8, B:0.7, B:0.6]` with ranks 1–5. -/
theorem c1_amended_fusion_stable_sort_truncate_rerank :
    perform_search_fuse [("A", fuse_a), ("B", fuse_b)] 5 =
      [{ id := "b1", score := 19/20, rank := 1, content := "", title := "",
         metadata := [], collection := some "B" },
       { id := "a1", score := 9/10, rank := 2, content := "", title := "",
         metadata := [], collection := some "A" },
       { id := "a2", score := 4/5, rank := 3, content := "", title := "",
         metadata := [], collection := some "A" },
       { id := "b2", score := 7/10, rank := 4, content := "", title := "",
         metadata := [], collection := some "B" },
       { id := "b3", score := 3/5, rank := 5, content := "", title := "",
         metadata := [], collection := some "B" }]
    ∧ ∀ (mr : List (String × List ResultItem)) (k : ℕ),
        List.Pairwise (fun a c : ResultItem => c.score ≤ a.score)
          (perform_search_fuse mr k)
        ∧ (perform_search_fuse mr k).map (fun x => x.rank) =
            List.range' 1 (perform_search_fuse mr k).length := by
  constructor
  · norm_num [perform_search_fuse, fuse_a, fuse_b, List.insertionSort,
      List.orderedInsert, List.enum, List.enumFrom]
  · intro mr k
    constructor
    · simp only [perform_search_fuse, List.enum]
      refine enumFrom_map_pairwise _
        (fun a c : ResultItem => c.score ≤ a.score) _ ?_ _ 0 ?_
      · intro p q hpq
        exact hpq
      · exact List.Pairwise.sublist (List.take_sublist _ _)
          (List.sorted_insertionSort _ _)
    · simp only [perform_search_fuse, List.enum]
      rw [enumFrom_map_rank _ (fun x : ResultItem => x.rank) (fun p => rfl)]
      rw [List.length_map, List.enumFrom_length]

/-!  Claim C5: deterministic document/point ids and idempotent
re-upsert. -/

/-- Zipping vectors into the point list (and keeping the unzipped tail)
does not change the point ids. -/
theorem zip_vector_map_id (ps : List PointR) (es : List (List ℚ)) :
    (((ps.zip es).map (fun pv : PointR × List ℚ =>
        { pv.1 with vector := some pv.2 })) ++
      ps.drop es.length).map (fun p : PointR => p.id) =
      ps.map (fun p : PointR => p.id) := by
  induction ps generalizing es with
  | nil => simp
  | cons p ps ih =>
    cases es with
    | nil => simp
    | cons e es =>
      simp only [List.zip_cons_cons, List.map_cons, List.length_cons,
        List.drop_succ_cons, List.cons_append]
      exact congrArg (p.id :: ·) (ih es)

/-- The point ids of one upload run depend only on the content (through
the chunking and the content hash), not on title, metadata, timestamp or
embeddings. -/
theorem upload_point_ids_eq (d : UploadDeps)
    (eb : List String → List (List ℚ)) (content title : String)
    (metadata : List (String × String)) (now : String) :
    upload_point_ids d eb content title metadata now =
      (d.splitText content).enum.map
        (fun p => d.md5hex16 content ++ "_" ++ toString p.1) := by
  unfold upload_point_ids upload_points
  rw [zip_vector_map_id]
  rw [List.map_map]
  rfl

/-- Key membership after a single overwrite-upsert. -/
theorem mem_ids_upsert_one (s : List PointR) (p : PointR) (k : String) :
    k ∈ (upsert_one s p).map (fun q => q.id) ↔
      k ∈ s.map (fun q => q.id) ∨ k = p.id := by
  simp only [upsert_one, List.map_append, List.mem_append, List.map_cons,
    List.map_nil, List.mem_singleton]
  constructor
  · rintro (h | h)
    · rcases List.mem_map.mp h with ⟨q, hq, rfl⟩
      exact Or.inl (List.mem_map_of_mem _ (List.mem_of_mem_filter hq))
    · exact Or.inr h
  · rintro (h | h)
    · rcases List.mem_map.mp h with ⟨q, hq, rfl⟩
      by_cases hqp : q.id = p.id
      · exact Or.inr hqp
      · refine Or.inl (List.mem_map_of_mem _ ?_)
        refine List.mem_filter.mpr ⟨hq, ?_⟩
        simpa [bne_iff_ne] using hqp
    · exact Or.inr h

/-- A single overwrite-upsert preserves key distinctness. -/
theorem nodup_ids_upsert_one (s : List PointR) (p : PointR)
    (h : (s.map (fun q => q.id)).Nodup) :
    ((upsert_one s p).map (fun q => q.id)).Nodup := by
  unfold upsert_one
  rw [List.map_append]
  refine List.Nodup.append ?_ ?_ ?_
  · exact List.Nodup.sublist (List.Sublist.map _ (List.filter_sublist s)) h
  · simp
  · intro a ha hb
    simp only [List.map_cons, List.map_nil, List.mem_singleton] at hb
    rcases List.mem_map.mp ha with ⟨q, hq, rfl⟩
    have := (List.mem_filter.mp hq).2
    rw [hb] at this
    simp at this

/-- Key membership after a bulk upsert: the stored keys are the old keys
plus the upserted ids. -/
theorem mem_ids_upsert_points (pts : List PointR) (s : List PointR)
    (k : String) :
    k ∈ (upsert_points s pts).map (fun q => q.id) ↔
      k ∈ s.map (fun q => q.id) ∨ k ∈ pts.map (fun q => q.id) := by
  induction pts generalizing s with
  | nil => simp [upsert_points]
  | cons p ps ih =>
    have hstep : upsert_points s (p :: ps) =
        upsert_points (upsert_one s p) ps := rfl
    rw [hstep, ih, mem_ids_upsert_one]
    simp [or_assoc, List.mem_cons]

/-- Bulk upsert preserves key distinctness (no duplication). -/
theorem nodup_ids_upsert_points (pts : List PointR) (s : List PointR)
    (h : (s.map (fun q => q.id)).Nodup) :
    ((upsert_points s pts).map (fun q => q.id)).Nodup := by
  induction pts generalizing s with
  | nil => exact h
  | cons p ps ih => exact ih _ (nodup_ids_upsert_one s p h)

/-- C5: ingesting the same content twice — regardless of title, metadata,
timestamp or embedding outcomes — produces the identical point-id list
(the document id is a pure function of the content, each point id a pure
function of `(document_id, index)`), and re-upserting overwrites: the
stored key set is unchanged by the second ingest and no duplicate keys
are created. -/
theorem c5_same_content_same_ids_idempotent_upsert (d : UploadDeps)
    (eb1 eb2 : List String → List (List ℚ)) (content t1 t2 : String)
    (m1 m2 : List (String × String)) (ts1 ts2 : String)
    (store : List PointR)
    (hnd : (store.map (fun p => p.id)).Nodup) :
    upload_point_ids d eb1 content t1 m1 ts1 =
      upload_point_ids d eb2 content t2 m2 ts2
    ∧ ((upsert_points (upsert_points store
          (upload_points d eb1 content t1 m1 ts1))
          (upload_points d eb2 content t2 m2 ts2)).map
        (fun p => p.id)).toFinset =
      ((upsert_points store (upload_points d eb1 content t1 m1 ts1)).map
        (fun p => p.id)).toFinset
    ∧ ((upsert_points (upsert_points store
          (upload_points d eb1 content t1 m1 ts1))
          (upload_points d eb2 content t2 m2 ts2)).map
        (fun p => p.id)).Nodup := by
  have hids : upload_point_ids d eb1 content t1 m1 ts1 =
      upload_point_ids d eb2 content t2 m2 ts2 := by
    rw [upload_point_ids_eq, upload_point_ids_eq]
  refine ⟨hids, ?_, ?_⟩
  · ext k
    simp only [List.mem_toFinset, mem_ids_upsert_points]
    have h2 : (upload_points d eb2 content t2 m2 ts2).map
        (fun p => p.id) = (upload_points d eb1 content t1 m1 ts1).map
        (fun p => p.id) := hids.symm
    rw [h2]
    tauto
  · exact nodup_ids_upsert_points _ _
      (nodup_ids_upsert_points _ _ hnd)

/-- Deterministic collaborators for the C5 witness. -/
def c5_deps : UploadDeps := ⟨fun _ => "f00dfeed01234567", fun c => [c]⟩

/-- A trivially deterministic embedding for the C5 witness. -/
def c5_embed : List String → List (List ℚ) := fun ts => ts.map (fun _ => [0])

/-- C5 witness: two ingests of the same content with different titles,
metadata and timestamps yield identical point ids, and re-upserting into
the empty store leaves the key set unchanged. -/
theorem c5_witness :
    upload_point_ids c5_deps c5_embed "hello" "title one"
      [("source", "a")] "2026-10-12" =
      upload_point_ids c5_deps c5_embed "hello" "title two" [] "2026-10-13"
    ∧ ((upsert_points (upsert_points []
          (upload_points c5_deps c5_embed "hello" "title one"
            [("source", "a")] "2026-10-12"))
          (upload_points c5_deps c5_embed "hello" "title two" []
            "2026-10-13")).map
        (fun p => p.id)).toFinset =
      ((upsert_points [] (upload_points c5_deps c5_embed "hello"
          "title one" [("source", "a")] "2026-10-12")).map
        (fun p => p.id)).toFinset :=
  ⟨(c5_same_content_same_ids_idempotent_upsert c5_deps c5_embed c5_embed
      "hello" "title one" "title two" [("source", "a")] [] "2026-10-12"
      "2026-10-13" [] (by simp)).1,
   (c5_same_content_same_ids_idempotent_upsert c5_deps c5_embed c5_embed
      "hello" "title one" "title two" [("source", "a")] [] "2026-10-12"
      "2026-10-13" [] (by simp)).2.1⟩

/-!  Claim C6: `delete_document` resolves matches through a single scroll
page of at most 1000 points. -/

/-- The `i`-th chunk point of the C6 failing document: distinct ids,
identical `document_id` payload. -/
def dup_pt (i : ℕ) : PointR :=
  ⟨String.mk (List.replicate i 'a'), none, [("document_id", "dup-doc")]⟩

/-- A collection holding 1001 chunk points of the same document. -/
def dup_store : List PointR := (List.range 1001).map dup_pt

/-- C6 failing input: with 1001 points carrying `document_id = dup-doc`,
`delete_document` reports success but deletes only the 1000 points
returned by its single `scroll(limit=1000)` page — the 1001st matching
point (`dup_pt 1000`) survives in the resulting store, although the
function's own docstring promises that all chunks of the document are
deleted. -/
theorem c6_scroll_limit_leaves_1001st_chunk :
    delete_document dup_store "dup-doc" =
      (true, delete_points dup_store
        (((List.range 1000).map dup_pt).map (fun p => p.id)))
    ∧ dup_pt 1000 ∈ delete_points dup_store
        (((List.range 1000).map dup_pt).map (fun p => p.id))
    ∧ payloadGet (dup_pt 1000).payload "document_id" = some "dup-doc" := by
  have hfilter : dup_store.filter
      (fun p => payloadGet p.payload "document_id" == some "dup-doc") =
      dup_store := by
    rw [List.filter_eq_self]
    intro a ha
    rcases List.mem_map.mp ha with ⟨i, hi, rfl⟩
    rfl
  have hscroll : scroll_by_doc_id dup_store "dup-doc" 1000 =
      (List.range 1000).map dup_pt := by
    unfold scroll_by_doc_id
    rw [hfilter]
    unfold dup_store
    rw [← List.map_take, List.take_range]
    norm_num
  have hne : (List.range 1000).map dup_pt ≠ [] := by
    simp [List.range_eq_nil]
  have hdel : delete_document dup_store "dup-doc" =
      (true, delete_points dup_store
        (((List.range 1000).map dup_pt).map (fun p => p.id))) := by
    unfold delete_document
    rw [hscroll, if_neg hne]
  refine ⟨hdel, ?_, rfl⟩
  have hnotin : ¬((dup_pt 1000).id ∈
      ((List.range 1000).map dup_pt).map (fun p => p.id)) := by
    intro hmem
    rw [List.map_map] at hmem
    rcases List.mem_map.mp hmem with ⟨j, hj, hEq⟩
    have hj' := List.mem_range.mp hj
    simp only [Function.comp, dup_pt] at hEq
    have hdata : List.replicate j 'a' = List.replicate 1000 'a' := by
      injection hEq
    have hlen := congrArg List.length hdata
    simp only [List.length_replicate] at hlen
    omega
  unfold delete_points
  refine List.mem_filter.mpr ⟨?_, ?_⟩
  · exact List.mem_map_of_mem dup_pt (List.mem_range.mpr (by norm_num))
  · simpa [List.elem_iff, List.contains] using hnotin

/-!  Claim C4: batch embedding shape, retry policy and zero-vector
fallback. -/

/-- The individual fallback produces exactly one vector per failed batch
item. -/
theorem fallback_items_length (oracle : EmbOracle) (dim : ℕ) :
    ∀ (l : List String) (n : ℕ),
      (fallback_items oracle dim l n).1.length = l.length := by
  intro l
  induction l with
  | nil => intro n; rfl
  | cons t ts ih =>
    intro n
    simp only [fallback_items, List.length_cons]
    rw [ih]

/-- With an always-failing provider, the retry loop exhausts its attempts
and re-raises the provider error, advancing the call counter by the
number of attempts. -/
theorem retry_loop_error (oracle : EmbOracle) (t err : String)
    (hfail : ∀ m ts, oracle m ts = Except.error err) :
    ∀ (attempts n : ℕ), 1 ≤ attempts →
      retry_loop oracle t n attempts = (Except.error err, n + attempts) := by
  intro attempts
  induction attempts with
  | zero => intro n h; omega
  | succ a ih =>
    intro n h
    have hce : create_embedding oracle n t = Except.error err := by
      simp [create_embedding, hfail]
    simp only [retry_loop, hce]
    cases a with
    | zero => simp
    | succ b =>
      rw [if_neg (by omega)]
      rw [ih (n + 1) (by omega)]
      refine congrArg (Prod.mk (Except.error err)) ?_
      omega

/-- Batch embedding returns exactly one vector per input text, given the
backend contract that a successful batch reply has one vector per
request. -/
theorem embeddings_batch_go_length (oracle : EmbOracle) (dim bs1 : ℕ)
    (hok : ∀ m ts vs, oracle m ts = Except.ok vs → vs.length = ts.length) :
    ∀ (N : ℕ) (texts : List String) (n : ℕ), texts.length ≤ N →
      (embeddings_batch_go oracle dim bs1 texts n).1.length =
        texts.length := by
  intro N
  induction N with
  | zero =>
    intro texts n hle
    have hnil : texts = [] := List.length_eq_zero.mp (Nat.le_zero.mp hle)
    subst hnil
    simp [embeddings_batch_go]
  | succ N ih =>
    intro texts n hle
    cases texts with
    | nil => simp [embeddings_batch_go]
    | cons t ts =>
      have hrest : (ts.drop bs1).length ≤ N := by
        simp only [List.length_drop]
        simp only [List.length_cons] at hle
        omega
      cases ho : oracle n ((t :: ts).take (bs1 + 1)) with
      | ok embs =>
        simp only [embeddings_batch_go, ho]
        rw [List.length_append, hok n _ _ ho, ih _ _ hrest]
        simp only [List.length_take, List.length_cons, List.length_drop]
        omega
      | error e =>
        simp only [embeddings_batch_go, ho]
        rw [List.length_append, fallback_items_length, ih _ _ hrest]
        simp only [List.length_take, List.length_cons, List.length_drop]
        omega

/-- With a deterministic always-successful backend, batch embedding
returns exactly the per-text embeddings, in input order. -/
theorem embeddings_batch_go_deterministic (oracle : EmbOracle)
    (dim bs1 : ℕ) (f : String → List ℚ)
    (hdet : ∀ m ts, oracle m ts = Except.ok (ts.map f)) :
    ∀ (N : ℕ) (texts : List String) (n : ℕ), texts.length ≤ N →
      (embeddings_batch_go oracle dim bs1 texts n).1 = texts.map f := by
  intro N
  induction N with
  | zero =>
    intro texts n hle
    have hnil : texts = [] := List.length_eq_zero.mp (Nat.le_zero.mp hle)
    subst hnil
    simp [embeddings_batch_go]
  | succ N ih =>
    intro texts n hle
    cases texts with
    | nil => simp [embeddings_batch_go]
    | cons t ts =>
      have hrest : (ts.drop bs1).length ≤ N := by
        simp only [List.length_drop]
        simp only [List.length_cons] at hle
        omega
      simp only [embeddings_batch_go, hdet]
      rw [ih _ _ hrest]
      rw [show ts.drop bs1 = (t :: ts).drop (bs1 + 1) from
        (List.drop_succ_cons).symm]
      rw [← List.map_append, List.take_append_drop]

/-- The transient provider of the claim's scenario: the first two calls
fail, every later call succeeds. -/
def transient_oracle : EmbOracle := fun n ts =>
  if n < 2 then .error "timeout" else .ok (ts.map (fun _ => [1, 2]))

/-- C4: batch embedding returns one vector per input text in input order
(under the backend reply-length contract, and exactly the per-text
embeddings for a deterministic backend); an item whose batch fails and
which then fails all 3 individual attempts is replaced by the all-zero
vector of the configured dimension, while the single-item retry path
failing all 3 attempts re-raises the provider error; and a transient
failure on the first 2 attempts followed by success on the 3rd returns
the successful vector. -/
theorem c4_batch_embedding_retry_fallback_policy :
    (∀ (oracle : EmbOracle) (dim bs1 n : ℕ) (texts : List String),
      (∀ m ts vs, oracle m ts = Except.ok vs → vs.length = ts.length) →
      (embeddings_batch_go oracle dim bs1 texts n).1.length = texts.length)
    ∧ (∀ (oracle : EmbOracle) (dim bs1 n : ℕ) (texts : List String)
        (f : String → List ℚ),
        (∀ m ts, oracle m ts = Except.ok (ts.map f)) →
        (embeddings_batch_go oracle dim bs1 texts n).1 = texts.map f)
    ∧ (∀ (oracle : EmbOracle) (dim n : ℕ) (t err : String),
        (∀ m ts, oracle m ts = Except.error err) →
        (fallback_items oracle dim [t] n).1 = [List.replicate dim 0]
        ∧ (create_embedding_with_retry oracle n t 3).1 = Except.error err)
    ∧ create_embedding_with_retry transient_oracle 0 "x" 3 =
        (Except.ok [1, 2], 3) := by
  refine ⟨?_, ?_, ?_, ?_⟩
  · intro oracle dim bs1 n texts hok
    exact embeddings_batch_go_length oracle dim bs1 hok texts.length
      texts n le_rfl
  · intro oracle dim bs1 n texts f hdet
    exact embeddings_batch_go_deterministic oracle dim bs1 f hdet
      texts.length texts n le_rfl
  · intro oracle dim n t err hfail
    have hretry := retry_loop_error oracle t err hfail 3 n (by omega)
    constructor
    · simp only [fallback_items, create_embedding_with_retry, hretry]
    · simp only [create_embedding_with_retry, hretry]
  · rfl

/-- C4 witness: concrete instances — an always-failing provider for the
batch-length and fallback parts, discharging the hypotheses. -/
theorem c4_witness :
    (embeddings_batch_go (fun _ _ => Except.error "provider down") 3 127
      ["a", "b"] 0).1.length = 2
    ∧ (fallback_items (fun _ _ => Except.error "provider down") 3 ["a"]
        0).1 = [List.replicate 3 0]
    ∧ (create_embedding_with_retry (fun _ _ => Except.error "provider down")
        0 "a" 3).1 = Except.error "provider down" :=
  ⟨c4_batch_embedding_retry_fallback_policy.1 _ 3 127 0 ["a", "b"]
      (fun _ _ _ h => Except.noConfusion h),
   (c4_batch_embedding_retry_fallback_policy.2.2.1 _ 3 0 "a"
      "provider down" (fun _ _ => rfl)).1,
   (c4_batch_embedding_retry_fallback_policy.2.2.1 _ 3 0 "a"
      "provider down" (fun _ _ => rfl)).2⟩
